import Mathlib

namespace TsickleModel

/-!
Verification of the type-translation engine of this repository
(src/src/type-translator.ts).

The TypeScript class TypeTranslator is embedded as a fuel-based,
state-passing interpreter.  ts.Type objects live in a cyclic graph, so
the graph is represented as a Nat-indexed environment of nodes
(identity of a ts.Type object = its index); recursion is driven by an
explicit fuel parameter and fuel exhaustion is a distinguished outcome
(the real code can diverge on graphs its guards do not cover).  The
mutable instance state (seenTypes, plus the warn() diagnostic stream)
is threaded explicitly.  Thrown errors (fatal aborts) are a
distinguished outcome as well.
-/

/-! ## ts.TypeFlags (public API values, TypeScript 2.1) -/

def FAny : Nat := 1
def FString : Nat := 2
def FNumber : Nat := 4
def FBoolean : Nat := 8
def FEnum : Nat := 16
def FStringLiteral : Nat := 32
def FNumberLiteral : Nat := 64
def FBooleanLiteral : Nat := 128
def FEnumLiteral : Nat := 256
def FESSymbol : Nat := 512
def FVoid : Nat := 1024
def FUndefined : Nat := 2048
def FNull : Nat := 4096
def FNever : Nat := 8192
def FTypeParameter : Nat := 16384
def FObject : Nat := 32768
def FUnion : Nat := 65536
def FIntersection : Nat := 131072
def FIndex : Nat := 262144
def FIndexedAccess : Nat := 524288

/-- `lastFlag` in translate(): the last flag handled by the switch. -/
def lastFlag : Nat := FIndexedAccess

/-- `mask = (lastFlag << 1) - 1` in translate(). -/
def flagsMask : Nat := (lastFlag <<< 1) - 1

/-! ## ts.ObjectFlags -/

def OClass : Nat := 1
def OInterface : Nat := 2
def OReference : Nat := 4
def OTuple : Nat := 8
def OAnonymous : Nat := 16
def OMapped : Nat := 32
def OInstantiated : Nat := 64
def OObjectLiteral : Nat := 128
def OEvolvingArray : Nat := 256
def OObjectLiteralPatternWithComputedProperties : Nat := 512

/-! ## ts.SymbolFlags (the ones the translator reads) -/

def SFFunction : Nat := 16
def SFTypeLiteral : Nat := 2048
def SFMethod : Nat := 8192

/-- `ts.SymbolFlags.Value` = FunctionScopedVariable | BlockScopedVariable |
Property | EnumMember | Function | Class | Enum | ValueModule | Method |
GetAccessor | SetAccessor = 107455. -/
def SFValue : Nat := 107455

/-! ## Data model

A ts.Symbol.  `declarations` is `Option` because the field may be
undefined (isBlackListed and isClosureProvidedType test for that); each
declaration is represented by its source file name, the only part of a
declaration the translator reads.  `members` is an ordered association
list (Object.keys iteration order) from member name to member symbol id. -/

structure Symbol where
  name : String := ""
  flags : Nat := 0
  declarations : Option (List String) := none
  members : Option (List (String × Nat)) := none
deriving Repr, DecidableEq, Inhabited

/-- A ts.Type node.  `symbol`, `typeArguments` model possibly-undefined
fields; `target` is the TypeReference target (only read on nodes whose
objectFlags carry Reference); `types` are the union constituents;
`pattern` models the destructuring-pattern marker read only by
typeToDebugString. -/
structure TypeNode where
  flags : Nat := 0
  objectFlags : Nat := 0
  symbol : Option Nat := none
  target : Nat := 0
  typeArguments : Option (List Nat) := none
  types : List Nat := []
  pattern : Bool := false
deriving Repr, DecidableEq, Inhabited

/-- A ts.Signature: parameter symbol ids plus its return type
(getReturnType / getReturnTypeOfSignature). -/
structure Signature where
  parameters : List Nat := []
  ret : Nat := 0
deriving Repr, DecidableEq, Inhabited

/-- The translator environment: the external type-checking engine
(read-only views of the type graph and the checker queries the
translator performs, all anchored at the instance node) together with
the construction-time configuration (pathBlackList,
symbolsToAliasedNames).  Function fields are keyed by type / symbol id. -/
structure Env where
  typeAt : Nat → TypeNode
  symAt : Nat → Symbol
  /-- typeChecker.getTypeOfSymbolAtLocation(sym, this.node) -/
  typeOfSymbol : Nat → Nat
  /-- typeChecker.getSignaturesOfType(type, SignatureKind.Call) -/
  callSigs : Nat → List Signature
  /-- type.getConstructSignatures() -/
  ctorSigs : Nat → List Signature
  /-- typeChecker.getIndexTypeOfType(type, IndexKind.String) -/
  stringIndex : Nat → Option Nat
  /-- typeChecker.getIndexTypeOfType(type, IndexKind.Number) -/
  numberIndex : Nat → Option Nat
  /-- output of the getSymbolDisplayBuilder writer for a symbol -/
  displayName : Nat → String
  pathBlackList : Option (List String) := none
  symbolsToAliasedNames : List (Nat × String) := []

/-- The mutable per-instance state: `seenTypes` (ids, in push order) and
the stream of warn() diagnostics. -/
structure St where
  seen : List Nat := []
  warns : List String := []
deriving Repr, DecidableEq, Inhabited

def St.warn (st : St) (m : String) : St := { st with warns := st.warns ++ [m] }

def St.pushSeen (st : St) (t : Nat) : St := { st with seen := st.seen ++ [t] }

/-- Outcome of a string-returning method: a returned string plus the
state after the call, a thrown error, or fuel exhaustion. -/
inductive TR where
  | ok (s : String) (st : St)
  | fatal (msg : String)
  | outOfFuel
deriving Repr, DecidableEq, Inhabited

/-- Outcome of a string-list-returning helper (parameter lists, union
constituent lists). -/
inductive TRs where
  | ok (ss : List String) (st : St)
  | fatal (msg : String)
  | outOfFuel
deriving Repr, DecidableEq, Inhabited

/-- Outcome of the member-gathering loop of translateTypeLiteral:
callable flag, indexable flag, rendered fields, state. -/
inductive GR where
  | ok (callable : Bool) (indexable : Bool) (fields : List String) (st : St)
  | fatal (msg : String)
  | outOfFuel
deriving Repr, DecidableEq, Inhabited

/-! ## Small pure helpers from the source file -/

def isWordChar (c : Char) : Bool := c.isAlphanum || c = '_'

/-- Tail matcher for the regex `\blib\.(?:[^\x2f]+\.)?d\.ts$`: does this
exact character suffix spell `lib.` then optionally a nonempty
slash-free run ending in a dot, then `d.ts`? -/
def libTail (t : List Char) : Bool :=
  match t with
  | 'l' :: 'i' :: 'b' :: '.' :: rest =>
    rest == ['d', '.', 't', 's'] ||
    (let n := rest.length
     decide (5 ≤ n) &&
     rest.drop (n - 4) == ['d', '.', 't', 's'] &&
     rest.getD (n - 5) ' ' == '.' &&
     (rest.take (n - 5)).all (· ≠ '/') &&
     decide (1 ≤ n - 5))
  | _ => false

/-- isBuiltinLibDTS: fileName.match(/\blib\.(?:[^\x2f]+\.)?d\.ts$/) != null,
as a search over all word-boundary start positions. -/
def isBuiltinLibDTS (fileName : String) : Bool :=
  let cs := fileName.data
  (List.range (cs.length + 1)).any fun i =>
    (decide (i = 0) || !isWordChar (cs.getD (i - 1) ' ')) && libTail (cs.drop i)

/-- isClosureProvidedType: symbol.declarations != null and some
declaration comes from a builtin lib.d.ts file. -/
def isClosureProvidedType (sym : Symbol) : Bool :=
  match sym.declarations with
  | none => false
  | some ds => ds.any isBuiltinLibDTS

/-- Lowercase hexadecimal rendering (Number.prototype.toString(16)). -/
def hexString (n : Nat) : String := String.mk (Nat.toDigits 16 n)

/-- JSON.stringify for a name (quote wrapping; backslash and quote
escaped — the only characters needing escape in the names this model
handles). -/
def jsonStr (s : String) : String :=
  "\"" ++ s.data.foldl (fun acc c =>
    if c = '\\' then acc ++ "\\\\"
    else if c = '"' then acc ++ "\\\"" else acc ++ String.singleton c) "" ++ "\""

/-- The basicTypes table of typeToDebugString, in source order, with the
reverse-enum names ts.TypeFlags[flag]. -/
def basicTypes : List (Nat × String) :=
  [(FAny, "Any"), (FString, "String"), (FNumber, "Number"), (FBoolean, "Boolean"),
   (FEnum, "Enum"), (FStringLiteral, "StringLiteral"), (FNumberLiteral, "NumberLiteral"),
   (FBooleanLiteral, "BooleanLiteral"), (FEnumLiteral, "EnumLiteral"), (FESSymbol, "ESSymbol"),
   (FVoid, "Void"), (FUndefined, "Undefined"), (FNull, "Null"), (FNever, "Never"),
   (FTypeParameter, "TypeParameter"), (FObject, "Object"), (FUnion, "Union"),
   (FIntersection, "Intersection"), (FIndex, "Index"), (FIndexedAccess, "IndexedAccess")]

/-- The objectFlags table of typeToDebugString, in source order. -/
def objectFlagsTable : List (Nat × String) :=
  [(OClass, "Class"), (OInterface, "Interface"), (OReference, "Reference"),
   (OTuple, "Tuple"), (OAnonymous, "Anonymous"), (OMapped, "Mapped"),
   (OInstantiated, "Instantiated"), (OObjectLiteral, "ObjectLiteral"),
   (OEvolvingArray, "EvolvingArray"),
   (OObjectLiteralPatternWithComputedProperties, "ObjectLiteralPatternWithComputedProperties")]

/-- ts.TypeFlags[n] reverse-enum lookup; missing entries render as the
string undefined (JS template-literal behavior). -/
def typeFlagsName (n : Nat) : String := (basicTypes.lookup n).getD "undefined"

/-- typeToDebugString, over a node of the modeled graph. -/
def typeToDebugString (env : Env) (t : Nat) : String :=
  let ty := env.typeAt t
  let s0 := "flags:0x" ++ hexString ty.flags
  let s1 := basicTypes.foldl (fun acc fl =>
      if ty.flags &&& fl.1 ≠ 0 then acc ++ " " ++ fl.2 else acc) s0
  let s2 := if ty.flags = FObject then
      objectFlagsTable.foldl (fun acc fl =>
        if ty.objectFlags &&& fl.1 ≠ 0 then acc ++ " object:" ++ fl.2 else acc) s1
    else s1
  let s3 := match ty.symbol with
    | some sid =>
        if (env.symAt sid).name ≠ "__type"
        then s2 ++ " symbol.name:" ++ jsonStr (env.symAt sid).name else s2
    | none => s2
  let s4 := if ty.pattern then s3 ++ " destructuring:true" else s3
  "\x7btype " ++ s4 ++ "\x7d"

/-! ## Name Resolver and Blacklist Filter -/

/-- symbolToString: an alias registered in symbolsToAliasedNames is
returned directly when truthy (the nonempty-string test models JS
truthiness of the alias); otherwise the display-builder output. -/
def symbolToString (env : Env) (sid : Nat) : String :=
  match env.symbolsToAliasedNames.lookup sid with
  | some a => if a ≠ "" then a else env.displayName sid
  | none => env.displayName sid

/-- isBlackListed, returning the decision together with the state
(it may emit the no-declarations diagnostic). -/
def isBlackListed (env : Env) (sid : Nat) (st : St) : Bool × St :=
  match env.pathBlackList with
  | none => (false, st)
  | some bl =>
    match (env.symAt sid).declarations with
    | none => (true, st.warn "symbol has no declarations")
    | some ds => (ds.all (fun p => bl.contains p), st)

/-! ## Union deduplication -/

/-- Array.prototype.indexOf (first index of the value, -1 when absent). -/
def jsIndexOf (l : List String) (x : String) : Int :=
  match l.findIdx? (fun y => y = x) with
  | some i => (i : Int)
  | none => -1

/-- parts.filter((el, idx) => parts.indexOf(el) === idx). -/
def dedupFirst (l : List String) : List String :=
  (l.enum.filter (fun p => jsIndexOf l p.2 = (p.1 : Int))).map Prod.snd

/-- parts.length === 1 ? parts[0] : `(parts.join("|"))`. -/
def renderUnion (parts : List String) : String :=
  if parts.length = 1 then parts.headD ""
  else "(" ++ String.intercalate "|" parts ++ ")"

/-! ## Sequencing combinators

The source methods are sequences of statements each of which can throw;
a thrown error (and, in the model, fuel exhaustion) propagates.  The
`bind` family expresses exactly that propagation. -/

def TR.bind (r : TR) (f : String → St → TR) : TR :=
  match r with
  | .ok s st => f s st
  | .fatal m => .fatal m
  | .outOfFuel => .outOfFuel

def TR.bindRs (r : TR) (f : String → St → TRs) : TRs :=
  match r with
  | .ok s st => f s st
  | .fatal m => .fatal m
  | .outOfFuel => .outOfFuel

def TR.bindG (r : TR) (f : String → St → GR) : GR :=
  match r with
  | .ok s st => f s st
  | .fatal m => .fatal m
  | .outOfFuel => .outOfFuel

def TRs.bindTR (r : TRs) (f : List String → St → TR) : TR :=
  match r with
  | .ok ss st => f ss st
  | .fatal m => .fatal m
  | .outOfFuel => .outOfFuel

def TRs.bind (r : TRs) (f : List String → St → TRs) : TRs :=
  match r with
  | .ok ss st => f ss st
  | .fatal m => .fatal m
  | .outOfFuel => .outOfFuel

def GR.bindTR (r : GR) (f : Bool → Bool → List String → St → TR) : TR :=
  match r with
  | .ok c i fs st => f c i fs st
  | .fatal m => .fatal m
  | .outOfFuel => .outOfFuel

/-! ## The engine -/

mutual

/-- translate(type): the switch on `type.flags & mask`, in source case
order.  The literal patterns are the TypeFlags case values: 1 Any;
2/32 String/StringLiteral; 4/64 Number/NumberLiteral;
8/128 Boolean/BooleanLiteral; 16/256 Enum/EnumLiteral; 512 ESSymbol;
1024 Void; 2048 Undefined; 4096 Null; 8192 Never; 16384 TypeParameter;
32768 Object; 65536 Union; 131072/262144/524288
Intersection/Index/IndexedAccess.  The default arm is the multi-flag
fallback: Union bit set means union handling, otherwise the fatal
exhaustiveness error. -/
def translate (env : Env) : Nat → St → Nat → TR
  | 0, _, _ => .outOfFuel
  | fuel + 1, st, t =>
    let ty := env.typeAt t
    match ty.flags &&& flagsMask with
    | 1 => .ok "?" st
    | 2 | 32 => .ok "string" st
    | 4 | 64 => .ok "number" st
    | 8 | 128 => .ok "boolean" st
    | 16 | 256 => .ok "number" st
    | 512 => .ok "symbol" st
    | 1024 => .ok "void" st
    | 2048 => .ok "undefined" st
    | 4096 => .ok "null" st
    | 8192 => .ok "?" (st.warn "should not emit a never type")
    | 16384 => .ok "?" (st.warn ("unhandled type flags: " ++ typeFlagsName ty.flags))
    | 32768 => translateObject env fuel st t
    | 65536 => translateUnion env fuel st t
    | 131072 | 262144 | 524288 =>
      .ok "?" (st.warn ("unhandled type flags: " ++ typeFlagsName ty.flags))
    | _ =>
      if ty.flags &&& FUnion ≠ 0 then translateUnion env fuel st t
      else .fatal ("unknown type flags: " ++ toString ty.flags)
termination_by structural fuel => fuel

/-- translateUnion: translate constituents in order, dedup, render. -/
def translateUnion (env : Env) : Nat → St → Nat → TR
  | 0, _, _ => .outOfFuel
  | fuel + 1, st, t =>
    (mapTranslate env fuel st (env.typeAt t).types).bindTR fun parts st' =>
      .ok (renderUnion (dedupFirst parts)) st'
termination_by structural fuel => fuel

/-- The state-threading map of translate over a list of types
(type.types.map(t => this.translate(t)) and convertParams). -/
def mapTranslate (env : Env) : Nat → St → List Nat → TRs
  | 0, _, _ => .outOfFuel
  | _ + 1, st, [] => .ok [] st
  | fuel + 1, st, t :: ts =>
    (translate env fuel st t).bindRs fun s st' =>
      (mapTranslate env fuel st' ts).bind fun ss st'' => .ok (s :: ss) st''
termination_by structural fuel => fuel

/-- translateObject: blacklist short-circuit, then the Class /
Interface / Reference / Anonymous if-else chain. -/
def translateObject (env : Env) : Nat → St → Nat → TR
  | 0, _, _ => .outOfFuel
  | fuel + 1, st, t =>
    let ty := env.typeAt t
    let bst := match ty.symbol with
      | some sid => isBlackListed env sid st
      | none => (false, st)
    if bst.1 then .ok "?" bst.2
    else
      let st := bst.2
      if ty.objectFlags &&& OClass ≠ 0 then
        match ty.symbol with
        | none => .ok "?" (st.warn "class has no symbol")
        | some sid => .ok ("!" ++ symbolToString env sid) st
      else if ty.objectFlags &&& OInterface ≠ 0 then
        match ty.symbol with
        | none => .ok "?" (st.warn "interface has no symbol")
        | some sid =>
          if (env.symAt sid).flags &&& SFValue ≠ 0 then
            if ¬ isClosureProvidedType (env.symAt sid) then
              .ok "?" (st.warn ("type/symbol conflict for " ++ (env.symAt sid).name ++
                ", using \x7b?\x7d for now"))
            else .ok ("!" ++ symbolToString env sid) st
          else .ok ("!" ++ symbolToString env sid) st
      else if ty.objectFlags &&& OReference ≠ 0 then
        if (env.typeAt ty.target).objectFlags &&& OTuple ≠ 0 then .ok "!Array<?>" st
        else if ty.target = t then
          .fatal ("reference loop in " ++ typeToDebugString env t ++ " " ++ toString ty.flags)
        else
          (translate env fuel st ty.target).bind fun s1 st1 =>
            match ty.typeArguments with
            | none => .ok s1 st1
            | some args =>
              (mapTranslate env fuel st1 args).bindTR fun ps st2 =>
                .ok (s1 ++ "<" ++ String.intercalate ", " ps ++ ">") st2
      else if ty.objectFlags &&& OAnonymous ≠ 0 then
        match ty.symbol with
        | none => .ok "?" (st.warn "anonymous type has no symbol")
        | some sid =>
          if (env.symAt sid).flags = SFTypeLiteral then
            translateTypeLiteral env fuel st t
          else if (env.symAt sid).flags = SFFunction ∨ (env.symAt sid).flags = SFMethod then
            let sigs := env.callSigs t
            if sigs.length = 1 then
              signatureToClosure env fuel st (sigs.headD default)
            else .ok "?" (st.warn "unhandled anonymous type")
          else .ok "?" (st.warn "unhandled anonymous type")
      else .ok "?" (st.warn ("unhandled type " ++ typeToDebugString env t))
termination_by structural fuel => fuel

/-- translateTypeLiteral: seenTypes cycle guard, construct-signature
special case, member gathering, then the shape dispatch. -/
def translateTypeLiteral (env : Env) : Nat → St → Nat → TR
  | 0, _, _ => .outOfFuel
  | fuel + 1, st, t =>
    if t ∈ st.seen then .ok "?" st
    else
      let st := st.pushSeen t
      let ty := env.typeAt t
      let membersOpt := match ty.symbol with
        | none => none
        | some sid => (env.symAt sid).members
      match membersOpt with
      | none => .ok "?" (st.warn "type literal has no symbol")
      | some members =>
        let ctors := env.ctorSigs t
        if ctors.length ≠ 0 then
          (convertParams env fuel st (ctors.headD default)).bindTR fun params st1 =>
            let paramsStr := if params.length ≠ 0
              then ", " ++ String.intercalate ", " params else ""
            (translate env fuel st1 (ctors.headD default).ret).bind fun ctype st2 =>
              .ok ("function(new: (" ++ ctype ++ ")" ++ paramsStr ++ "): ?") st2
        else
          (gatherFields env fuel st members false false []).bindTR
            fun callable indexable fields st1 =>
            if fields.length = 0 then
              if callable ∧ ¬ indexable then
                let sigs := env.callSigs t
                if sigs.length = 1 then
                  signatureToClosure env fuel st1 (sigs.headD default)
                else .ok "?" (st1.warn "unhandled type literal")
              else if indexable ∧ ¬ callable then
                match env.stringIndex t with
                | some valType =>
                  (translate env fuel st1 valType).bind fun v st2 =>
                    .ok ("!Object<string," ++ v ++ ">") st2
                | none =>
                  match env.numberIndex t with
                  | some valType =>
                    (translate env fuel st1 valType).bind fun v st2 =>
                      .ok ("!Object<number," ++ v ++ ">") st2
                  | none => .ok "!Object<?,?>" (st1.warn "unknown index key type")
              else if ¬ callable ∧ ¬ indexable then .ok "!Object" st1
              else .ok "?" (st1.warn "unhandled type literal")
            else
              if ¬ callable ∧ ¬ indexable then
                .ok ("\x7b" ++ String.intercalate ", " fields ++ "\x7d") st1
              else .ok "?" (st1.warn "unhandled type literal")
termination_by structural fuel => fuel

/-- The member loop of translateTypeLiteral: __call marks callable,
__index marks indexable, anything else becomes a rendered field. -/
def gatherFields (env : Env) :
    Nat → St → List (String × Nat) → Bool → Bool → List String → GR
  | 0, _, _, _, _, _ => .outOfFuel
  | _ + 1, st, [], callable, indexable, fields => .ok callable indexable fields st
  | fuel + 1, st, (fname, msid) :: rest, callable, indexable, fields =>
    if fname = "__call" then gatherFields env fuel st rest true indexable fields
    else if fname = "__index" then gatherFields env fuel st rest callable true fields
    else
      (translate env fuel st (env.typeOfSymbol msid)).bindG fun mt st' =>
        gatherFields env fuel st' rest callable indexable (fields ++ [fname ++ ": " ++ mt])
termination_by structural fuel => fuel

/-- signatureToClosure: params, then the return type, appended as a
`: ret` suffix when the returned string is truthy (nonempty). -/
def signatureToClosure (env : Env) : Nat → St → Signature → TR
  | 0, _, _ => .outOfFuel
  | fuel + 1, st, sig =>
    (convertParams env fuel st sig).bindTR fun params st1 =>
      let typeStr := "function(" ++ String.intercalate ", " params ++ ")"
      (translate env fuel st1 sig.ret).bind fun retType st2 =>
        if retType ≠ "" then .ok (typeStr ++ ": " ++ retType) st2
        else .ok typeStr st2
termination_by structural fuel => fuel

/-- convertParams: translate each parameter type, resolved at the
anchor node. -/
def convertParams (env : Env) : Nat → St → Signature → TRs
  | 0, _, _ => .outOfFuel
  | fuel + 1, st, sig => mapTranslate env fuel st (sig.parameters.map env.typeOfSymbol)
termination_by structural fuel => fuel
end

/-- Spec-side formulation of union deduplication: keep each string the
first time it appears, dropping later repeats. -/
def keepFirsts (l : List String) : List String :=
  l.foldl (fun acc x => if x ∈ acc then acc else acc ++ [x]) []

/-- Spec-side in-order rendering of the named members of a type literal:
each member becomes the string `name: <translated type>`, with the state
threaded left to right, exactly as the gathering loop does for
non-synthetic members. -/
def renderMembers (env : Env) : Nat → St → List (String × Nat) → TRs
  | 0, _, _ => .outOfFuel
  | _ + 1, st, [] => .ok [] st
  | fuel + 1, st, (fname, msid) :: rest =>
    (translate env fuel st (env.typeOfSymbol msid)).bindRs fun mt st' =>
      (renderMembers env fuel st' rest).bind fun ss st'' =>
        .ok ((fname ++ ": " ++ mt) :: ss) st''
termination_by structural fuel => fuel



/-! ## Concrete instances (used by witnesses and counterexamples) -/

/-- A checker with inert defaults, overridden per instance. -/
def baseChecker : Env :=
  { typeAt := fun _ => {}
    symAt := fun _ => {}
    typeOfSymbol := fun _ => 0
    callSigs := fun _ => []
    ctorSigs := fun _ => []
    stringIndex := fun _ => none
    numberIndex := fun _ => none
    displayName := fun _ => "" }

/-- An anonymous empty type literal at id 0. -/
def envLit : Env :=
  { baseChecker with
    typeAt := fun _ => { flags := FObject, objectFlags := OAnonymous, symbol := some 0 }
    symAt := fun _ => { name := "x", flags := SFTypeLiteral, members := some [] } }

/-- A self-referential Reference at id 0 (no symbol). -/
def envLoop : Env :=
  { baseChecker with
    typeAt := fun _ => { flags := FObject, objectFlags := OReference, target := 0 } }

/-- A self-referential Reference at id 0 whose symbol is blacklisted. -/
def envLoopBL : Env :=
  { baseChecker with
    typeAt := fun _ =>
      { flags := FObject, objectFlags := OReference, symbol := some 0, target := 0 }
    symAt := fun _ => { name := "L", declarations := some ["bl.d.ts"] }
    pathBlackList := some ["bl.d.ts"] }

/-- A union type 0 over two boolean literals and a number. -/
def envUnion : Env :=
  { baseChecker with
    typeAt := fun n =>
      if n = 0 then { flags := FUnion, types := [1, 2, 3] }
      else if n = 3 then { flags := FNumber }
      else { flags := FBooleanLiteral } }

/-- A type literal at 0 with a synthetic __call member and one named
field a of number type. -/
def envCallField : Env :=
  { baseChecker with
    typeAt := fun n =>
      if n = 0 then { flags := FObject, objectFlags := OAnonymous, symbol := some 0 }
      else { flags := FNumber }
    symAt := fun s =>
      if s = 0 then
        { name := "x", flags := SFTypeLiteral, members := some [("__call", 1), ("a", 2)] }
      else { name := "a" }
    typeOfSymbol := fun _ => 1 }

/-- A type literal at 0 with a single named field a of number type. -/
def envRecord : Env :=
  { baseChecker with
    typeAt := fun n =>
      if n = 0 then { flags := FObject, objectFlags := OAnonymous, symbol := some 0 }
      else { flags := FNumber }
    symAt := fun s =>
      if s = 0 then { name := "x", flags := SFTypeLiteral, members := some [("a", 2)] }
      else { name := "a" }
    typeOfSymbol := fun _ => 1 }

/-- A Class-flagged type at 0 whose symbol 0 is aliased to Foo and
not blacklisted. -/
def envAlias : Env :=
  { baseChecker with
    typeAt := fun _ => { flags := FObject, objectFlags := OClass, symbol := some 0 }
    symAt := fun _ => { name := "C", declarations := some ["a.ts"] }
    displayName := fun _ => "C"
    symbolsToAliasedNames := [(0, "Foo")] }

/-- A Class-flagged type at 0 whose symbol 0 is aliased to Foo and also
blacklisted (every declaration path in the blacklist). -/
def envAliasBL : Env :=
  { baseChecker with
    typeAt := fun _ => { flags := FObject, objectFlags := OClass, symbol := some 0 }
    symAt := fun _ => { name := "C", declarations := some ["bl.d.ts"] }
    displayName := fun _ => "C"
    pathBlackList := some ["bl.d.ts"]
    symbolsToAliasedNames := [(0, "Foo")] }

/-- No blacklist configured; symbol 0 has no declarations field. -/
def envNoBL : Env :=
  { baseChecker with symAt := fun _ => { name := "z" } }

/-- Blacklist configured; symbol 0 has no declarations field. -/
def envBLnone : Env :=
  { baseChecker with
    symAt := fun _ => { name := "z" }
    pathBlackList := some ["p.ts"] }

/-- Blacklist configured; symbol 0 has an empty declarations list. -/
def envBLempty : Env :=
  { baseChecker with
    symAt := fun _ => { name := "z", declarations := some [] }
    pathBlackList := some ["p.ts"] }

/-- A type at 0 with no recognized kind bits at all. -/
def envZero : Env := baseChecker

/-- A boolean type at 0: Union and Boolean bits together (65544), the
union being its two boolean literal members. -/
def envBool : Env :=
  { baseChecker with
    typeAt := fun n =>
      if n = 0 then { flags := FUnion ||| FBoolean, types := [1, 2] }
      else { flags := FBooleanLiteral } }

/-- A one-parameter signature: parameter symbol 5 of number type 1,
return type 7 of string type. -/
def envSig : Env :=
  { baseChecker with
    typeAt := fun n => if n = 7 then { flags := FString } else { flags := FNumber }
    typeOfSymbol := fun _ => 1 }

/-- A type at 0 flagged both Interface and Reference, with type
arguments present, whose symbol 0 is a pure type (no value flags). -/
def envIR : Env :=
  { baseChecker with
    typeAt := fun n =>
      if n = 0 then
        { flags := FObject, objectFlags := OInterface ||| OReference, symbol := some 0,
          target := 1, typeArguments := some [1] }
      else { flags := FNumber }
    symAt := fun _ => { name := "IFoo", flags := 64 }
    displayName := fun _ => "IFoo" }

/-- A type at 0 flagged both Class and Interface whose symbol is also a
value (Class symbol flag 32) and not from a builtin lib file: the
Interface branch would degrade to the unknown fallback, the Class
branch does not. -/
def envCI : Env :=
  { baseChecker with
    typeAt := fun _ =>
      { flags := FObject, objectFlags := OClass ||| OInterface, symbol := some 0 }
    symAt := fun _ => { name := "C", flags := 32, declarations := some ["a.ts"] }
    displayName := fun _ => "C" }

/-! ## Properties -/

@[simp] theorem St.warn_seen (st : St) (m : String) : (st.warn m).seen = st.seen := rfl

@[simp] theorem St.pushSeen_seen (st : St) (t : Nat) :
    (st.pushSeen t).seen = st.seen ++ [t] := rfl

@[simp] theorem isBlackListed_snd_seen (env : Env) (sid : Nat) (st : St) :
    ((isBlackListed env sid st).2).seen = st.seen := by
  cases hp : env.pathBlackList with
  | none => simp [isBlackListed, hp]
  | some bl =>
    cases hd : (env.symAt sid).declarations with
    | none => simp [isBlackListed, hp, hd, St.warn]
    | some ds => simp [isBlackListed, hp, hd]

/-- When the symbol is not blacklisted the check leaves the state
untouched (the diagnostic is emitted only on the true branch for
missing declarations). -/
theorem isBlackListed_false_st (env : Env) (sid : Nat) (st : St)
    (h : (isBlackListed env sid st).1 = false) : (isBlackListed env sid st).2 = st := by
  cases hp : env.pathBlackList with
  | none => simp [isBlackListed, hp]
  | some bl =>
    cases hd : (env.symAt sid).declarations with
    | none => simp [isBlackListed, hp, hd] at h
    | some ds => simp [isBlackListed, hp, hd]

@[simp] theorem trBind_eq_ok {r : TR} {f : String → St → TR} {s : String} {st' : St} :
    TR.bind r f = .ok s st' ↔ ∃ s1 st1, r = .ok s1 st1 ∧ f s1 st1 = .ok s st' := by
  cases r <;> simp [TR.bind]
  constructor
  · intro h; exact ⟨_, _, ⟨rfl, rfl⟩, h⟩
  · rintro ⟨a, b, ⟨rfl, rfl⟩, h⟩; exact h

@[simp] theorem trBindRs_eq_ok {r : TR} {f : String → St → TRs} {ss : List String} {st' : St} :
    TR.bindRs r f = .ok ss st' ↔ ∃ s1 st1, r = .ok s1 st1 ∧ f s1 st1 = .ok ss st' := by
  cases r <;> simp [TR.bindRs]
  constructor
  · intro h; exact ⟨_, _, ⟨rfl, rfl⟩, h⟩
  · rintro ⟨a, b, ⟨rfl, rfl⟩, h⟩; exact h

@[simp] theorem trBindG_eq_ok {r : TR} {f : String → St → GR} {c i : Bool}
    {fs : List String} {st' : St} :
    TR.bindG r f = .ok c i fs st' ↔ ∃ s1 st1, r = .ok s1 st1 ∧ f s1 st1 = .ok c i fs st' := by
  cases r <;> simp [TR.bindG]
  constructor
  · intro h; exact ⟨_, _, ⟨rfl, rfl⟩, h⟩
  · rintro ⟨a, b, ⟨rfl, rfl⟩, h⟩; exact h

@[simp] theorem trsBindTR_eq_ok {r : TRs} {f : List String → St → TR} {s : String} {st' : St} :
    TRs.bindTR r f = .ok s st' ↔ ∃ ss1 st1, r = .ok ss1 st1 ∧ f ss1 st1 = .ok s st' := by
  cases r <;> simp [TRs.bindTR]
  constructor
  · intro h; exact ⟨_, _, ⟨rfl, rfl⟩, h⟩
  · rintro ⟨a, b, ⟨rfl, rfl⟩, h⟩; exact h

@[simp] theorem trsBind_eq_ok {r : TRs} {f : List String → St → TRs} {ss : List String}
    {st' : St} :
    TRs.bind r f = .ok ss st' ↔ ∃ ss1 st1, r = .ok ss1 st1 ∧ f ss1 st1 = .ok ss st' := by
  cases r <;> simp [TRs.bind]
  constructor
  · intro h; exact ⟨_, _, ⟨rfl, rfl⟩, h⟩
  · rintro ⟨a, b, ⟨rfl, rfl⟩, h⟩; exact h

@[simp] theorem grBindTR_eq_ok {r : GR} {f : Bool → Bool → List String → St → TR} {s : String}
    {st' : St} :
    GR.bindTR r f = .ok s st' ↔ ∃ c i fs st1, r = .ok c i fs st1 ∧ f c i fs st1 = .ok s st' := by
  cases r with
  | ok c0 i0 fs0 st0 =>
    constructor
    · intro h; exact ⟨c0, i0, fs0, st0, rfl, h⟩
    · rintro ⟨c, i, fs, st1, heq, h⟩; cases heq; exact h
  | fatal m => simp [GR.bindTR]
  | outOfFuel => simp [GR.bindTR]

theorem seen_sub_push (st : St) (t : Nat) : st.seen ⊆ (st.pushSeen t).seen := by
  simp [St.pushSeen]

set_option maxHeartbeats 4000000 in
theorem seen_mono (env : Env) : ∀ fuel : Nat,
    (∀ st t s st', translate env fuel st t = .ok s st' → st.seen ⊆ st'.seen) ∧
    (∀ st t s st', translateUnion env fuel st t = .ok s st' → st.seen ⊆ st'.seen) ∧
    (∀ st ts ss st', mapTranslate env fuel st ts = .ok ss st' → st.seen ⊆ st'.seen) ∧
    (∀ st t s st', translateObject env fuel st t = .ok s st' → st.seen ⊆ st'.seen) ∧
    (∀ st t s st', translateTypeLiteral env fuel st t = .ok s st' → st.seen ⊆ st'.seen) ∧
    (∀ st ms c i acc c' i' fs st', gatherFields env fuel st ms c i acc = .ok c' i' fs st' →
      st.seen ⊆ st'.seen) ∧
    (∀ st sig s st', signatureToClosure env fuel st sig = .ok s st' → st.seen ⊆ st'.seen) ∧
    (∀ st sig ss st', convertParams env fuel st sig = .ok ss st' → st.seen ⊆ st'.seen) := by
  intro fuel
  induction fuel with
  | zero =>
    refine ⟨?_, ?_, ?_, ?_, ?_, ?_, ?_, ?_⟩
    · intro st t s st' h; simp [translate] at h
    · intro st t s st' h; simp [translateUnion] at h
    · intro st ts ss st' h; simp [mapTranslate] at h
    · intro st t s st' h; simp [translateObject] at h
    · intro st t s st' h; simp [translateTypeLiteral] at h
    · intro st ms c i acc c' i' fs st' h; simp [gatherFields] at h
    · intro st sig s st' h; simp [signatureToClosure] at h
    · intro st sig ss st' h; simp [convertParams] at h
  | succ f ih =>
    obtain ⟨ihT, ihU, ihM, ihO, ihL, ihG, ihS, ihC⟩ := ih
    refine ⟨?_, ?_, ?_, ?_, ?_, ?_, ?_, ?_⟩
    · -- translate
      intro st t s st' h
      simp only [translate] at h
      split at h
      all_goals try split at h
      all_goals first
        | exact ihO _ _ _ _ h
        | exact ihU _ _ _ _ h
        | (cases h; exact fun _ hx => hx)
        | cases h
    · -- translateUnion
      intro st t s st' h
      simp only [translateUnion, trsBindTR_eq_ok] at h
      obtain ⟨parts, st1, heq, h⟩ := h
      cases h
      exact ihM _ _ _ _ heq
    · -- mapTranslate
      intro st ts ss st' h
      match ts with
      | [] =>
        simp only [mapTranslate] at h
        cases h; exact fun _ hx => hx
      | t :: ts =>
        simp only [mapTranslate, trBindRs_eq_ok, trsBind_eq_ok] at h
        obtain ⟨s1, st1, heq1, ss2, st2, heq2, h⟩ := h
        cases h
        exact fun x hx => ihM _ _ _ _ heq2 (ihT _ _ _ _ heq1 hx)
    · -- translateObject
      intro st t s st' h
      rcases hsym : (env.typeAt t).symbol with - | sid <;>
        simp only [translateObject, hsym] at h <;>
        repeat' split at h
      all_goals first
        | (cases h; intro x hx; simpa using hx)
        | cases h
        | (intro x hx; exact ihL _ _ _ _ h (by simpa using hx))
        | (intro x hx; exact ihS _ _ _ _ h (by simpa using hx))
        | (simp only [trBind_eq_ok, trsBindTR_eq_ok] at h
           obtain ⟨s1, st1, heq1, ps, st2, heq2, h⟩ := h
           cases h; intro x hx
           exact ihM _ _ _ _ heq2 (ihT _ _ _ _ heq1 (by simpa using hx)))
        | (simp only [trBind_eq_ok] at h
           obtain ⟨s1, st1, heq1, h⟩ := h
           cases h; intro x hx
           exact ihT _ _ _ _ heq1 (by simpa using hx))
    · -- translateTypeLiteral
      intro st t s st' h
      simp only [translateTypeLiteral] at h
      split at h
      · cases h; exact fun _ hx => hx
      · split at h
        · -- members missing: warn, "?"
          cases h; intro x hx
          exact seen_sub_push st t hx
        · -- members present
          split at h
          · -- construct signatures
            simp only [trsBindTR_eq_ok, trBind_eq_ok] at h
            obtain ⟨params, st1, heq1, ctype, st2, heq2, h⟩ := h
            cases h; intro x hx
            exact ihT _ _ _ _ heq2 (ihC _ _ _ _ heq1 (seen_sub_push st t hx))
          · -- member gathering
            simp only [grBindTR_eq_ok] at h
            obtain ⟨c, i, fs, st1, heqG, h⟩ := h
            have base : st.seen ⊆ st1.seen :=
              fun x hx => ihG _ _ _ _ _ _ _ _ _ heqG (seen_sub_push st t hx)
            repeat' split at h
            all_goals first
              | (cases h; intro x hx; simpa using base hx)
              | cases h
              | (intro x hx; exact ihS _ _ _ _ h (base hx))
              | (simp only [trBind_eq_ok] at h
                 obtain ⟨v, st2, heq2, h⟩ := h
                 cases h; intro x hx
                 exact ihT _ _ _ _ heq2 (base hx))
    · -- gatherFields
      intro st ms c i acc c' i' fs st' h
      match ms with
      | [] =>
        simp only [gatherFields] at h
        cases h; exact fun _ hx => hx
      | (fname, msid) :: rest =>
        simp only [gatherFields] at h
        split at h
        · exact ihG _ _ _ _ _ _ _ _ _ h
        · split at h
          · exact ihG _ _ _ _ _ _ _ _ _ h
          · simp only [trBindG_eq_ok] at h
            obtain ⟨mt, st1, heq1, h⟩ := h
            exact fun x hx => ihG _ _ _ _ _ _ _ _ _ h (ihT _ _ _ _ heq1 hx)
    · -- signatureToClosure
      intro st sig s st' h
      simp only [signatureToClosure, trsBindTR_eq_ok, trBind_eq_ok] at h
      obtain ⟨params, st1, heq1, retType, st2, heq2, h⟩ := h
      split at h
      all_goals
        (cases h; exact fun x hx => ihT _ _ _ _ heq2 (ihC _ _ _ _ heq1 hx))
    · -- convertParams
      intro st sig ss st' h
      simp only [convertParams] at h
      exact ihM _ _ _ _ h

theorem str_append_ne_left (p q : String) (hp : p ≠ "") : p ++ q ≠ "" := by
  intro h
  apply hp
  have hd := congrArg String.data h
  rw [String.data_append] at hd
  have hp' : p.data = [] := (List.append_eq_nil.mp hd).1
  cases p
  simp_all

theorem dedupFirst_subset (l : List String) : dedupFirst l ⊆ l := by
  intro x hx
  simp only [dedupFirst, List.mem_map, List.mem_filter] at hx
  obtain ⟨⟨i, y⟩, ⟨hmem, -⟩, rfl⟩ := hx
  rw [List.enum_eq_zip_range] at hmem
  exact (List.of_mem_zip hmem).2

theorem renderUnion_dedup_ne (parts : List String) (hall : ∀ x ∈ parts, x ≠ "") :
    renderUnion (dedupFirst parts) ≠ "" := by
  unfold renderUnion
  split
  · rename_i hlen
    cases hd : dedupFirst parts with
    | nil => rw [hd] at hlen; simp at hlen
    | cons a l =>
      simp only [List.headD_cons]
      exact hall a (dedupFirst_subset parts (by rw [hd]; exact List.mem_cons_self a l))
  · exact str_append_ne_left "(" _ (by decide)

set_option maxHeartbeats 4000000 in
theorem ok_nonempty (env : Env) : ∀ fuel : Nat,
    (∀ st t s st', translate env fuel st t = .ok s st' → s ≠ "") ∧
    (∀ st t s st', translateUnion env fuel st t = .ok s st' → s ≠ "") ∧
    (∀ st ts ss st', mapTranslate env fuel st ts = .ok ss st' → ∀ x ∈ ss, x ≠ "") ∧
    (∀ st t s st', translateObject env fuel st t = .ok s st' → s ≠ "") ∧
    (∀ st t s st', translateTypeLiteral env fuel st t = .ok s st' → s ≠ "") ∧
    (∀ st sig s st', signatureToClosure env fuel st sig = .ok s st' → s ≠ "") := by
  intro fuel
  induction fuel with
  | zero =>
    refine ⟨?_, ?_, ?_, ?_, ?_, ?_⟩
    · intro st t s st' h; simp [translate] at h
    · intro st t s st' h; simp [translateUnion] at h
    · intro st ts ss st' h; simp [mapTranslate] at h
    · intro st t s st' h; simp [translateObject] at h
    · intro st t s st' h; simp [translateTypeLiteral] at h
    · intro st sig s st' h; simp [signatureToClosure] at h
  | succ f ih =>
    obtain ⟨ihT, ihU, ihM, ihO, ihL, ihS⟩ := ih
    refine ⟨?_, ?_, ?_, ?_, ?_, ?_⟩
    · -- translate
      intro st t s st' h
      simp only [translate] at h
      split at h
      all_goals try split at h
      all_goals first
        | exact ihO _ _ _ _ h
        | exact ihU _ _ _ _ h
        | (cases h; decide)
        | cases h
    · -- translateUnion
      intro st t s st' h
      simp only [translateUnion, trsBindTR_eq_ok] at h
      obtain ⟨parts, st1, heq, h⟩ := h
      cases h
      exact renderUnion_dedup_ne parts (ihM _ _ _ _ heq)
    · -- mapTranslate
      intro st ts ss st' h
      match ts with
      | [] =>
        simp only [mapTranslate] at h
        cases h; intro x hx; simp at hx
      | t :: ts =>
        simp only [mapTranslate, trBindRs_eq_ok, trsBind_eq_ok] at h
        obtain ⟨s1, st1, heq1, ss2, st2, heq2, h⟩ := h
        cases h
        intro x hx
        rcases List.mem_cons.mp hx with rfl | hx
        · exact ihT _ _ _ _ heq1
        · exact ihM _ _ _ _ heq2 x hx
    · -- translateObject
      intro st t s st' h
      rcases hsym : (env.typeAt t).symbol with - | sid <;>
        simp only [translateObject, hsym] at h <;>
        repeat' split at h
      all_goals first
        | (cases h; decide)
        | (cases h; exact str_append_ne_left "!" _ (by decide))
        | (cases h; done)
        | decide
        | exact str_append_ne_left "!" _ (by decide)
        | exact ihL _ _ _ _ h
        | exact ihS _ _ _ _ h
        | (simp only [trBind_eq_ok, trsBindTR_eq_ok] at h
           obtain ⟨s1, st1, heq1, ps, st2, heq2, h⟩ := h
           cases h
           exact str_append_ne_left _ _ (str_append_ne_left _ _
             (str_append_ne_left _ _ (ihT _ _ _ _ heq1))))
        | (simp only [trBind_eq_ok] at h
           obtain ⟨s1, st1, heq1, h⟩ := h
           cases h
           exact ihT _ _ _ _ heq1)
    · -- translateTypeLiteral
      intro st t s st' h
      simp only [translateTypeLiteral] at h
      split at h
      · cases h; decide
      · split at h
        · cases h; decide
        · split at h
          · simp only [trsBindTR_eq_ok, trBind_eq_ok] at h
            obtain ⟨params, st1, heq1, ctype, st2, heq2, h⟩ := h
            cases h
            exact str_append_ne_left _ _ (str_append_ne_left _ _
              (str_append_ne_left "function(new: (" _ (by decide)))
          · simp only [grBindTR_eq_ok] at h
            obtain ⟨c, i, fs, st1, heqG, h⟩ := h
            repeat' split at h
            all_goals first
              | (cases h; decide)
              | (cases h; exact str_append_ne_left _ _ (str_append_ne_left "\x7b" _ (by decide)))
              | (cases h; done)
              | decide
              | exact str_append_ne_left _ _ (str_append_ne_left "\x7b" _ (by decide))
              | exact ihS _ _ _ _ h
              | (simp only [trBind_eq_ok] at h
                 obtain ⟨v, st2, heq2, h⟩ := h
                 cases h
                 exact str_append_ne_left _ _ (str_append_ne_left _ _ (by decide)))
    · -- signatureToClosure
      intro st sig s st' h
      simp only [signatureToClosure, trsBindTR_eq_ok, trBind_eq_ok] at h
      obtain ⟨params, st1, heq1, retType, st2, heq2, h⟩ := h
      split at h
      · cases h
        exact str_append_ne_left _ _ (str_append_ne_left _ _
          (str_append_ne_left "function(" _ (by decide)))
      · cases h
        exact str_append_ne_left _ _ (str_append_ne_left "function(" _ (by decide))

theorem keepFirsts_go_mem (l : List String) (acc : List String) (x : String) :
    x ∈ l.foldl (fun acc x => if x ∈ acc then acc else acc ++ [x]) acc ↔ x ∈ acc ∨ x ∈ l := by
  induction l generalizing acc with
  | nil => simp
  | cons a l ih =>
    simp only [List.foldl_cons, List.mem_cons]
    rw [ih]
    split
    · rename_i ha
      constructor
      · rintro (hx | hx)
        · exact Or.inl hx
        · exact Or.inr (Or.inr hx)
      · rintro (hx | rfl | hx)
        · exact Or.inl hx
        · exact Or.inl ha
        · exact Or.inr hx
    · simp only [List.mem_append, List.mem_singleton]
      tauto

theorem mem_keepFirsts (l : List String) (x : String) : x ∈ keepFirsts l ↔ x ∈ l := by
  simpa using keepFirsts_go_mem l [] x

theorem keepFirsts_append_single (l : List String) (x : String) :
    keepFirsts (l ++ [x]) = if x ∈ l then keepFirsts l else keepFirsts l ++ [x] := by
  have h1 : keepFirsts (l ++ [x]) =
      if x ∈ keepFirsts l then keepFirsts l else keepFirsts l ++ [x] := by
    unfold keepFirsts
    rw [List.foldl_append]
    simp only [List.foldl_cons, List.foldl_nil]
  rw [h1]
  simp only [mem_keepFirsts]

theorem findIdx?_append_left {α} (l1 l2 : List α) (p : α → Bool)
    (h : (l1.findIdx? p).isSome) : (l1 ++ l2).findIdx? p = l1.findIdx? p := by
  induction l1 with
  | nil => simp at h
  | cons a l1 ih =>
    simp only [List.cons_append, List.findIdx?_cons]
    by_cases hp : p a
    · simp [hp]
    · simp only [hp, if_false, List.findIdx?_succ]
      simp only [List.findIdx?_cons, hp, if_false, List.findIdx?_succ] at h
      rw [ih (by simpa using h)]

theorem findIdx?_append_right_single {α} (l : List α) (x : α) (p : α → Bool)
    (hall : ∀ z ∈ l, p z = false) (hx : p x = true) :
    (l ++ [x]).findIdx? p = some l.length := by
  induction l with
  | nil => simp [hx]
  | cons a l ih =>
    have ha : p a = false := hall a (List.mem_cons_self a l)
    simp only [List.cons_append, List.findIdx?_cons, ha, if_false, List.findIdx?_succ]
    rw [ih (fun z hz => hall z (List.mem_cons_of_mem a hz))]
    simp

theorem jsIndexOf_append_of_mem (l : List String) (l2 : List String) (y : String)
    (hy : y ∈ l) : jsIndexOf (l ++ l2) y = jsIndexOf l y := by
  unfold jsIndexOf
  rw [findIdx?_append_left]
  rw [List.findIdx?_isSome]
  simp only [List.any_eq_true, decide_eq_true_eq]
  exact ⟨y, hy, rfl⟩

theorem jsIndexOf_lt_length (l : List String) (y : String) (i : Nat)
    (h : l.findIdx? (fun z => z = y) = some i) : i < l.length :=
  (List.findIdx?_eq_some_iff_findIdx_eq.mp h).1

theorem enum_append_single {α} (l : List α) (x : α) :
    (l ++ [x]).enum = l.enum ++ [(l.length, x)] := by
  rw [List.enum_eq_zip_range, List.enum_eq_zip_range, List.length_append]
  simp only [List.length_singleton, List.range_succ]
  rw [List.zip_append (by simp)]
  simp

theorem dedupFirst_append_single (l : List String) (x : String) :
    dedupFirst (l ++ [x]) = dedupFirst l ++ if x ∈ l then [] else [x] := by
  unfold dedupFirst
  rw [enum_append_single, List.filter_append, List.map_append]
  congr 1
  · congr 1
    apply List.filter_congr
    intro p hp
    obtain ⟨i, y⟩ := p
    have hyl : y ∈ l := by
      rw [List.enum_eq_zip_range] at hp
      exact (List.of_mem_zip hp).2
    simp only [jsIndexOf_append_of_mem l [x] y hyl]
  · by_cases hx : x ∈ l
    · rw [if_pos hx]
      have hfound : ∃ i, l.findIdx? (fun z => z = x) = some i := by
        have hs : (l.findIdx? (fun z => z = x)).isSome := by
          rw [List.findIdx?_isSome]
          simp only [List.any_eq_true, decide_eq_true_eq]
          exact ⟨x, hx, rfl⟩
        exact Option.isSome_iff_exists.mp hs
      obtain ⟨i, hi⟩ := hfound
      have hlt : i < l.length := jsIndexOf_lt_length l x i hi
      have hji : jsIndexOf l x = (i : Int) := by
        unfold jsIndexOf
        rw [hi]
      have hne : jsIndexOf (l ++ [x]) x ≠ ((l.length : Int)) := by
        rw [jsIndexOf_append_of_mem l [x] x hx, hji]
        intro hcontra
        have : i = l.length := by exact_mod_cast hcontra
        omega
      simp only [List.filter_cons, List.filter_nil]
      rw [if_neg (by simpa using hne)]
      simp
    · rw [if_neg hx]
      have hidx : (l ++ [x]).findIdx? (fun z => z = x) = some l.length := by
        apply findIdx?_append_right_single
        · intro z hz
          simp only [decide_eq_false_iff_not]
          intro hzx
          exact hx (hzx ▸ hz)
        · simp
      have : jsIndexOf (l ++ [x]) x = (l.length : Int) := by
        unfold jsIndexOf
        rw [hidx]
      simp only [List.filter_cons, List.filter_nil]
      rw [if_pos (by simpa using this)]
      simp

/-- The JS dedup (filter by indexOf === idx) keeps exactly the first
occurrence of each string. -/
theorem dedupFirst_eq_keepFirsts (l : List String) : dedupFirst l = keepFirsts l := by
  induction l using List.reverseRecOn with
  | nil => rfl
  | append_singleton l x ih =>
    rw [dedupFirst_append_single, keepFirsts_append_single, ih]
    by_cases hx : x ∈ l <;> simp [hx]

theorem mem_dedupFirst (l : List String) (x : String) : x ∈ dedupFirst l ↔ x ∈ l := by
  rw [dedupFirst_eq_keepFirsts]
  exact mem_keepFirsts l x

/-- Deduplication preserves the original order (sublist). -/
theorem dedupFirst_sublist (l : List String) : List.Sublist (dedupFirst l) l := by
  induction l using List.reverseRecOn with
  | nil => simp [dedupFirst]
  | append_singleton l x ih =>
    rw [dedupFirst_append_single]
    by_cases hx : x ∈ l
    · simp only [if_pos hx, List.append_nil]
      exact ih.trans (List.sublist_append_left l [x])
    · simp only [if_neg hx]
      exact List.Sublist.append ih (List.Sublist.refl [x])

/-- Deduplication leaves no duplicates. -/
theorem dedupFirst_nodup (l : List String) : (dedupFirst l).Nodup := by
  induction l using List.reverseRecOn with
  | nil => simp [dedupFirst]
  | append_singleton l x ih =>
    rw [dedupFirst_append_single]
    by_cases hx : x ∈ l
    · simpa [hx] using ih
    · simp only [if_neg hx]
      rw [List.nodup_append]
      refine ⟨ih, List.nodup_singleton x, ?_⟩
      intro y hy hy2
      rw [List.mem_singleton] at hy2
      subst hy2
      exact hx ((mem_dedupFirst l y).mp hy)

/-- On member lists without the synthetic __call / __index keys, the
gathering loop leaves the callable/indexable flags untouched and
produces exactly the in-order rendered fields. -/
theorem gatherFields_no_synth (env : Env) :
    ∀ fuel st ms c i acc,
    (∀ p ∈ ms, p.1 ≠ "__call" ∧ p.1 ≠ "__index") →
    gatherFields env fuel st ms c i acc =
      match renderMembers env fuel st ms with
      | .ok ss st' => .ok c i (acc ++ ss) st'
      | .fatal m => .fatal m
      | .outOfFuel => .outOfFuel := by
  intro fuel
  induction fuel with
  | zero => intro st ms c i acc hsynth; simp [gatherFields, renderMembers]
  | succ f ih =>
    intro st ms c i acc hsynth
    match ms with
    | [] => simp [gatherFields, renderMembers]
    | (fname, msid) :: rest =>
      obtain ⟨hc, hi⟩ := hsynth (fname, msid) (List.mem_cons_self _ _)
      simp only [gatherFields, renderMembers, if_neg hc, if_neg hi]
      cases htr : translate env f st (env.typeOfSymbol msid) with
      | ok mt st1 =>
        simp only [TR.bindG, TR.bindRs]
        rw [ih st1 rest c i (acc ++ [fname ++ ": " ++ mt])
          (fun p hp => hsynth p (List.mem_cons_of_mem _ hp))]
        cases hrm : renderMembers env f st1 rest with
        | ok ss st2 => simp [TRs.bind]
        | fatal m => simp [TRs.bind]
        | outOfFuel => simp [TRs.bind]
      | fatal m => simp [TR.bindG, TR.bindRs]
      | outOfFuel => simp [TR.bindG, TR.bindRs]

/-- renderMembers yields one rendered field per member. -/
theorem renderMembers_length (env : Env) :
    ∀ fuel st ms ss st', renderMembers env fuel st ms = .ok ss st' →
      ss.length = ms.length := by
  intro fuel
  induction fuel with
  | zero => intro st ms ss st' h; simp [renderMembers] at h
  | succ f ih =>
    intro st ms ss st' h
    match ms with
    | [] => simp only [renderMembers] at h; cases h; rfl
    | (fname, msid) :: rest =>
      simp only [renderMembers, trBindRs_eq_ok, trsBind_eq_ok] at h
      obtain ⟨mt, st1, heq1, ss2, st2, heq2, h⟩ := h
      cases h
      simpa using ih st1 rest ss2 _ heq2




/-! ## Claims -/

/-- C6 counterexample: the claim says a symbol with zero declaration
sites is ALWAYS classified suppressed with a diagnostic.  With no
blacklist configured, isBlackListed returns false immediately and emits
nothing, even for a symbol with no declarations. -/
theorem C6_counterexample :
    (isBlackListed envNoBL 0 ⟨[], []⟩).1 = false ∧
    ((isBlackListed envNoBL 0 ⟨[], []⟩).2).warns = [] := ⟨by decide, by decide⟩

/-- C6 (amended): when a blacklist is configured, a symbol whose
declarations field is absent is classified suppressed and the
no-declarations diagnostic is emitted; a symbol with a present but
empty declarations list is classified suppressed (vacuous every) with
no diagnostic; with no blacklist configured every symbol is
unsuppressed with no diagnostic. -/
theorem C6_zero_decls (env : Env) (sid : Nat) (st : St) :
    (∀ bl, env.pathBlackList = some bl → (env.symAt sid).declarations = none →
      isBlackListed env sid st = (true, st.warn "symbol has no declarations")) ∧
    (∀ bl, env.pathBlackList = some bl → (env.symAt sid).declarations = some [] →
      isBlackListed env sid st = (true, st)) ∧
    (env.pathBlackList = none → isBlackListed env sid st = (false, st)) := by
  refine ⟨?_, ?_, ?_⟩
  · intro bl hbl hd
    unfold isBlackListed
    rw [hbl, hd]
  · intro bl hbl hd
    unfold isBlackListed
    rw [hbl, hd]
    rfl
  · intro hbl
    unfold isBlackListed
    rw [hbl]

/-- C6 witness: the three amended cases at concrete instances. -/
theorem C6_witness :
    isBlackListed envBLnone 0 ⟨[], []⟩ =
      (true, (⟨[], []⟩ : St).warn "symbol has no declarations") ∧
    isBlackListed envBLempty 0 ⟨[], []⟩ = (true, ⟨[], []⟩) ∧
    isBlackListed envNoBL 0 ⟨[], []⟩ = (false, ⟨[], []⟩) :=
  ⟨(C6_zero_decls envBLnone 0 ⟨[], []⟩).1 ["p.ts"] (by decide) (by decide),
   (C6_zero_decls envBLempty 0 ⟨[], []⟩).2.1 ["p.ts"] (by decide) (by decide),
   (C6_zero_decls envNoBL 0 ⟨[], []⟩).2.2 (by decide)⟩

/-- C7: a blacklisted symbol (blacklist configured, declarations
present, every declaration path in the blacklist) makes translateObject
return the unknown fallback immediately, for every object sub-kind (the
objectFlags of the node are unconstrained here), with the state
untouched: no member, target or type-argument translation happens (the
conclusion holds already at the minimal fuel for one call). -/
theorem C7_blacklist_unknown (env : Env) (fuel : Nat) (st : St) (t : Nat) (sid : Nat)
    (bl : List String) (ds : List String)
    (hsym : (env.typeAt t).symbol = some sid)
    (hbl : env.pathBlackList = some bl)
    (hds : (env.symAt sid).declarations = some ds)
    (hall : ∀ p ∈ ds, bl.contains p = true) :
    translateObject env (fuel + 1) st t = .ok "?" st := by
  have h1 : isBlackListed env sid st = (true, st) := by
    simp only [isBlackListed, hbl, hds]
    rw [List.all_eq_true.mpr hall]
  simp only [translateObject, hsym, h1]
  rw [if_pos trivial]

/-- C7 witness: a blacklisted Class-flagged type translates to the
unknown fallback with no state change. -/
theorem C7_witness : translateObject envAliasBL 1 ⟨[], []⟩ 0 = .ok "?" ⟨[], []⟩ :=
  C7_blacklist_unknown envAliasBL 0 ⟨[], []⟩ 0 0 ["bl.d.ts"] ["bl.d.ts"]
    (by decide) (by decide) (by decide) (by decide)

/-- C5 counterexample: the claim says an aliased symbol always yields
the aliased name even when blacklisted.  A blacklisted Class type whose
symbol is aliased to Foo translates to the unknown fallback, not to the
alias: the blacklist check runs before name resolution. -/
theorem C5_counterexample :
    translate envAliasBL 2 ⟨[], []⟩ 0 = .ok "?" ⟨[], []⟩ ∧
    envAliasBL.symbolsToAliasedNames.lookup 0 = some "Foo" ∧
    "?" ≠ "Foo" ∧ "?" ≠ "!Foo" := ⟨by decide, by decide, by decide, by decide⟩

/-- C5 (amended): a nonempty alias registered for a symbol is returned
verbatim by symbolToString, bypassing the display builder; and a
non-blacklisted Class-flagged type with an aliased symbol renders as
the non-null alias.  The bypass does not extend over the blacklist
check, which runs first (see the counterexample). -/
theorem C5_alias_bypass :
    (∀ env : Env, ∀ sid a, env.symbolsToAliasedNames.lookup sid = some a → a ≠ "" →
      symbolToString env sid = a) ∧
    (∀ env : Env, ∀ fuel st t sid a, (env.typeAt t).symbol = some sid →
      (env.typeAt t).objectFlags &&& OClass ≠ 0 →
      (isBlackListed env sid st).1 = false →
      env.symbolsToAliasedNames.lookup sid = some a → a ≠ "" →
      translateObject env (fuel + 1) st t = .ok ("!" ++ a) st) := by
  constructor
  · intro env sid a hl ha
    simp only [symbolToString, hl]
    rw [if_pos ha]
  · intro env fuel st t sid a hsym hcls hnb hl ha
    have hst := isBlackListed_false_st env sid st hnb
    simp only [translateObject, hsym, hnb, hst]
    rw [if_neg (by simp [hnb]), if_pos hcls]
    have hname : symbolToString env sid = a := by
      simp only [symbolToString, hl]
      rw [if_pos ha]
    rw [hname]

/-- C5 witness: the alias is returned verbatim and the non-blacklisted
aliased class renders as the non-null alias. -/
theorem C5_witness :
    symbolToString envAlias 0 = "Foo" ∧
    translateObject envAlias 1 ⟨[], []⟩ 0 = .ok "!Foo" ⟨[], []⟩ :=
  ⟨C5_alias_bypass.1 envAlias 0 "Foo" (by decide) (by decide),
   (C5_alias_bypass.2 envAlias 0 ⟨[], []⟩ 0 0 "Foo" (by decide) (by decide) (by decide)
     (by decide) (by decide)).trans (by decide)⟩



/-- C2 counterexample: the claim says EVERY self-referential Reference
raises the fatal reference-loop error rather than returning a string.
A self-referential Reference whose symbol is blacklisted returns the
unknown-fallback string instead: the blacklist check runs first. -/
theorem C2_counterexample :
    translate envLoopBL 2 ⟨[], []⟩ 0 = .ok "?" ⟨[], []⟩ ∧
    (envLoopBL.typeAt 0).objectFlags &&& OReference ≠ 0 ∧
    (envLoopBL.typeAt 0).target = 0 := ⟨by decide, by decide, by decide⟩

/-- C2 (amended): a self-referential Reference raises the fatal
reference-loop error (and translate propagates it when the masked kind
is Object), provided the node reaches the Reference branch: its symbol
(if any) is not blacklisted, it has no Class or Interface sub-kind bit,
and it is not Tuple-flagged.  The error carries the debug rendering of
the node; no result string is produced and recursion stops. -/
theorem C2_reference_loop_fatal (env : Env) (fuel : Nat) (st : St) (t : Nat)
    (hbl : ∀ sid, (env.typeAt t).symbol = some sid → (isBlackListed env sid st).1 = false)
    (hcls : (env.typeAt t).objectFlags &&& OClass = 0)
    (hintf : (env.typeAt t).objectFlags &&& OInterface = 0)
    (href : (env.typeAt t).objectFlags &&& OReference ≠ 0)
    (htup : (env.typeAt t).objectFlags &&& OTuple = 0)
    (hself : (env.typeAt t).target = t) :
    translateObject env (fuel + 1) st t =
      .fatal ("reference loop in " ++ typeToDebugString env t ++ " " ++
        toString (env.typeAt t).flags) ∧
    ((env.typeAt t).flags &&& flagsMask = FObject →
      translate env (fuel + 2) st t =
        .fatal ("reference loop in " ++ typeToDebugString env t ++ " " ++
          toString (env.typeAt t).flags)) := by
  have hobj : translateObject env (fuel + 1) st t =
      .fatal ("reference loop in " ++ typeToDebugString env t ++ " " ++
        toString (env.typeAt t).flags) := by
    rcases hsym : (env.typeAt t).symbol with - | sid
    · simp only [translateObject, hsym]
      rw [if_neg (by simp), if_neg (by simp [hcls]), if_neg (by simp [hintf]),
        if_pos href, if_neg (by rw [hself]; simp [htup]), if_pos hself]
    · have hnb := hbl sid hsym
      simp only [translateObject, hsym]
      rw [if_neg (by simp [hnb]), if_neg (by simp [hcls]), if_neg (by simp [hintf]),
        if_pos href, if_neg (by rw [hself]; simp [htup]), if_pos hself]
  refine ⟨hobj, ?_⟩
  intro hm
  have hm' : (env.typeAt t).flags &&& flagsMask = 32768 := hm
  simp only [translate, hm']
  exact hobj

/-- C2 witness: a self-referential Reference with no symbol aborts with
the fatal reference-loop error, through translateObject and through the
translate dispatch. -/
theorem C2_witness :
    translateObject envLoop 1 ⟨[], []⟩ 0 =
      .fatal ("reference loop in " ++ typeToDebugString envLoop 0 ++ " " ++
        toString (envLoop.typeAt 0).flags) ∧
    translate envLoop 2 ⟨[], []⟩ 0 =
      .fatal ("reference loop in " ++ typeToDebugString envLoop 0 ++ " " ++
        toString (envLoop.typeAt 0).flags) :=
  ⟨(C2_reference_loop_fatal envLoop 0 ⟨[], []⟩ 0
      (fun sid h => Option.noConfusion h) (by decide) (by decide) (by decide)
      (by decide) (by decide)).1,
   (C2_reference_loop_fatal envLoop 0 ⟨[], []⟩ 0
      (fun sid h => Option.noConfusion h) (by decide) (by decide) (by decide)
      (by decide) (by decide)).2 (by decide)⟩

/-- C3: translateUnion translates the constituents in order (the
hypothesis names their sequential translation), removes duplicate
result strings keeping the first occurrence of each (dedupFirst equals
the spec-side keepFirsts, is duplicate-free, is an order-preserving
sublist of the results, and keeps exactly the strings that occur), and
renders a single distinct string bare, two or more parenthesized and
pipe-joined. -/
theorem C3_union_dedup (env : Env) (fuel : Nat) (st : St) (t : Nat)
    (parts : List String) (st' : St)
    (h : mapTranslate env fuel st (env.typeAt t).types = .ok parts st') :
    translateUnion env (fuel + 1) st t = .ok (renderUnion (dedupFirst parts)) st' ∧
    dedupFirst parts = keepFirsts parts ∧
    (dedupFirst parts).Nodup ∧
    List.Sublist (dedupFirst parts) parts ∧
    (∀ x, x ∈ dedupFirst parts ↔ x ∈ parts) ∧
    ((dedupFirst parts).length = 1 →
      renderUnion (dedupFirst parts) = (dedupFirst parts).headD "") ∧
    ((dedupFirst parts).length ≠ 1 →
      renderUnion (dedupFirst parts) =
        "(" ++ String.intercalate "|" (dedupFirst parts) ++ ")") := by
  refine ⟨?_, dedupFirst_eq_keepFirsts parts, dedupFirst_nodup parts,
    dedupFirst_sublist parts, fun x => mem_dedupFirst parts x, ?_, ?_⟩
  · simp only [translateUnion, h, TRs.bindTR]
  · intro hlen
    unfold renderUnion
    rw [if_pos hlen]
  · intro hlen
    unfold renderUnion
    rw [if_neg hlen]

/-- C3 witness: true | false | number translates constituent-wise to
boolean, boolean, number; the duplicate boolean is dropped keeping its
first position and the two distinct strings are parenthesized and
pipe-joined. -/
theorem C3_witness :
    translateUnion envUnion 5 ⟨[], []⟩ 0 = .ok "(boolean|number)" ⟨[], []⟩ ∧
    dedupFirst ["boolean", "boolean", "number"] =
      keepFirsts ["boolean", "boolean", "number"] ∧
    renderUnion (dedupFirst ["boolean", "boolean", "number"]) = "(boolean|number)" := by
  have h := C3_union_dedup envUnion 4 ⟨[], []⟩ 0 ["boolean", "boolean", "number"]
    ⟨[], []⟩ (by decide)
  exact ⟨h.1.trans (by decide), h.2.1, by decide⟩

/-- C8: when the masked kind flags equal none of the switch case
values, translate falls back to union handling when the Union bit is
set in the raw flags, and otherwise throws the fatal unknown-type-flags
error (no fallback string). -/
theorem C8_dispatch_default (env : Env) (fuel : Nat) (st : St) (t : Nat)
    (hnc : (env.typeAt t).flags &&& flagsMask ∉
      ([FAny, FString, FStringLiteral, FNumber, FNumberLiteral, FBoolean, FBooleanLiteral,
        FEnum, FEnumLiteral, FESSymbol, FVoid, FUndefined, FNull, FNever, FTypeParameter,
        FObject, FUnion, FIntersection, FIndex, FIndexedAccess] : List Nat)) :
    translate env (fuel + 1) st t =
      if (env.typeAt t).flags &&& FUnion ≠ 0 then translateUnion env fuel st t
      else .fatal ("unknown type flags: " ++ toString (env.typeAt t).flags) := by
  simp only [translate]
  split
  all_goals first
    | rfl
    | (rename_i heq
       exact absurd (by rw [heq]; decide) hnc)

/-- C8 witness: flags 0 match no case and have no Union bit, so the
whole translation aborts; flags 65544 (Union plus Boolean, the shape of
an expanded boolean) match no single case but carry the Union bit, so
translate falls back to union handling and succeeds. -/
theorem C8_witness :
    translate envZero 1 ⟨[], []⟩ 0 = .fatal ("unknown type flags: " ++ toString 0) ∧
    translate envBool 5 ⟨[], []⟩ 0 = .ok "boolean" ⟨[], []⟩ :=
  ⟨(C8_dispatch_default envZero 0 ⟨[], []⟩ 0 (by decide)).trans (by decide),
   (C8_dispatch_default envBool 4 ⟨[], []⟩ 0 (by decide)).trans (by decide)⟩



/-- C9: a normal return of translate is never the empty string, so in
signatureToClosure the translated return type always passes the
truthiness guard and the colon-suffix is appended to every rendered
signature whose parameter and return translations return normally. -/
theorem C9_nonempty_return (env : Env) :
    (∀ fuel st t s st', translate env fuel st t = .ok s st' → s ≠ "") ∧
    (∀ fuel st sig ps st1 r st2,
      mapTranslate env fuel st (sig.parameters.map env.typeOfSymbol) = .ok ps st1 →
      translate env (fuel + 1) st1 sig.ret = .ok r st2 →
      signatureToClosure env (fuel + 2) st sig =
        .ok ("function(" ++ String.intercalate ", " ps ++ ")" ++ ": " ++ r) st2) := by
  refine ⟨fun fuel => (ok_nonempty env fuel).1, ?_⟩
  intro fuel st sig ps st1 r st2 h1 h2
  have hr : r ≠ "" := (ok_nonempty env (fuel + 1)).1 st1 sig.ret r st2 h2
  simp only [signatureToClosure, convertParams, h1, TRs.bindTR, h2, TR.bind]
  rw [if_pos hr]

/-- C9 witness: a one-parameter number-to-string signature renders with
its return-type suffix. -/
theorem C9_witness :
    signatureToClosure envSig 4 ⟨[], []⟩ ⟨[5], 7⟩ = .ok "function(number): string" ⟨[], []⟩ :=
  ((C9_nonempty_return envSig).2 2 ⟨[], []⟩ ⟨[5], 7⟩ ["number"] ⟨[], []⟩ "string" ⟨[], []⟩
    (by decide) (by decide)).trans (by decide)

/-- C10: translateObject dispatches on the first matching branch in the
order Class, Interface, Reference, Anonymous.  A non-blacklisted type
flagged both Interface and Reference takes the Interface branch and
renders as the bare non-null nominal name, its type arguments ignored
(the typeArguments field is unconstrained in the statement); a type
flagged Class takes the Class branch even when it is also flagged
Interface and its symbol has a value-flag conflict that would make the
Interface branch degrade. -/
theorem C10_subkind_precedence :
    (∀ env : Env, ∀ fuel st t sid,
      (env.typeAt t).objectFlags &&& OClass = 0 →
      (env.typeAt t).objectFlags &&& OInterface ≠ 0 →
      (env.typeAt t).objectFlags &&& OReference ≠ 0 →
      (env.typeAt t).symbol = some sid →
      (isBlackListed env sid st).1 = false →
      (env.symAt sid).flags &&& SFValue = 0 →
      translateObject env (fuel + 1) st t = .ok ("!" ++ symbolToString env sid) st) ∧
    (∀ env : Env, ∀ fuel st t sid,
      (env.typeAt t).objectFlags &&& OClass ≠ 0 →
      (env.typeAt t).symbol = some sid →
      (isBlackListed env sid st).1 = false →
      translateObject env (fuel + 1) st t = .ok ("!" ++ symbolToString env sid) st) := by
  constructor
  · intro env fuel st t sid hcls hintf href hsym hnb hval
    have hst := isBlackListed_false_st env sid st hnb
    simp only [translateObject, hsym, hst]
    rw [if_neg (by simp [hnb]), if_neg (by simp [hcls]), if_pos hintf,
      if_neg (by simp [hval])]
  · intro env fuel st t sid hcls hsym hnb
    have hst := isBlackListed_false_st env sid st hnb
    simp only [translateObject, hsym, hst]
    rw [if_neg (by simp [hnb]), if_pos hcls]

/-- C10 witness: the Interface-and-Reference type with type arguments
present renders as the bare name (no argument list); the
Class-and-Interface type with a value-conflicted symbol renders via the
Class branch rather than degrading. -/
theorem C10_witness :
    translateObject envIR 1 ⟨[], []⟩ 0 = .ok "!IFoo" ⟨[], []⟩ ∧
    translateObject envCI 1 ⟨[], []⟩ 0 = .ok "!C" ⟨[], []⟩ :=
  ⟨(C10_subkind_precedence.1 envIR 0 ⟨[], []⟩ 0 0 (by decide) (by decide) (by decide)
      (by decide) (by decide) (by decide)).trans (by decide),
   (C10_subkind_precedence.2 envCI 0 ⟨[], []⟩ 0 0 (by decide) (by decide)
      (by decide)).trans (by decide)⟩

/-- A first encounter of a type literal records the type in seenTypes:
whatever branch produces the returned string, the pushed id survives to
the final state. -/
theorem translateTypeLiteral_records (env : Env) (fuel : Nat) (st : St) (t : Nat)
    (s : String) (st' : St) (hnot : t ∉ st.seen)
    (h : translateTypeLiteral env (fuel + 1) st t = .ok s st') : t ∈ st'.seen := by
  obtain ⟨mT, mU, mM, mO, mL, mG, mS, mC⟩ := seen_mono env fuel
  have hmem : t ∈ (st.pushSeen t).seen := by simp [St.pushSeen]
  simp only [translateTypeLiteral, if_neg hnot] at h
  split at h
  · cases h; exact hmem
  · split at h
    · simp only [trsBindTR_eq_ok, trBind_eq_ok] at h
      obtain ⟨params, st1, heq1, ctype, st2, heq2, h⟩ := h
      cases h
      exact mT _ _ _ _ heq2 (mC _ _ _ _ heq1 hmem)
    · simp only [grBindTR_eq_ok] at h
      obtain ⟨c, i, fs, st1, heqG, h⟩ := h
      have base : t ∈ st1.seen := mG _ _ _ _ _ _ _ _ _ heqG hmem
      repeat' split at h
      all_goals first
        | (cases h; exact base)
        | (cases h; done)
        | exact mS _ _ _ _ h base
        | (simp only [trBind_eq_ok] at h
           obtain ⟨v, st2, heq2, h⟩ := h
           cases h
           exact mT _ _ _ _ heq2 base)

/-- C1: a type literal already in the instance seenTypes list is
answered with the unknown fallback immediately and without any state
change; the seenTypes list only ever grows across any translate call
(so it persists for the lifetime of the instance, across unrelated
top-level calls threading the same state); and a first expansion of a
literal leaves it recorded in the final state, so a later encounter
hits the guard. -/
theorem C1_seen_types_persist (env : Env) :
    (∀ fuel st t, t ∈ st.seen → translateTypeLiteral env (fuel + 1) st t = .ok "?" st) ∧
    (∀ fuel st t s st', translate env fuel st t = .ok s st' → st.seen ⊆ st'.seen) ∧
    (∀ fuel st t s st', t ∉ st.seen →
      translateTypeLiteral env (fuel + 1) st t = .ok s st' → t ∈ st'.seen) := by
  refine ⟨?_, fun fuel => (seen_mono env fuel).1, ?_⟩
  · intro fuel st t ht
    simp only [translateTypeLiteral, if_pos ht]
  · intro fuel st t s st' hnot h
    exact translateTypeLiteral_records env fuel st t s st' hnot h

/-- C1 witness: a first top-level call expands the empty literal to
!Object and records id 0; a second call on the same instance state
answers the unknown fallback without re-expanding. -/
theorem C1_witness :
    (translate envLit 5 ⟨[], []⟩ 0 = .ok "!Object" ⟨[0], []⟩ ∧
      (⟨[], []⟩ : St).seen ⊆ (⟨[0], []⟩ : St).seen) ∧
    (0 ∉ (⟨[], []⟩ : St).seen ∧
      translateTypeLiteral envLit 4 ⟨[], []⟩ 0 = .ok "!Object" ⟨[0], []⟩ ∧
      0 ∈ (⟨[0], []⟩ : St).seen) ∧
    (0 ∈ (⟨[0], []⟩ : St).seen ∧
      translateTypeLiteral envLit 1 ⟨[0], []⟩ 0 = .ok "?" ⟨[0], []⟩) :=
  ⟨⟨by decide, (C1_seen_types_persist envLit).2.1 5 ⟨[], []⟩ 0 "!Object" ⟨[0], []⟩
      (by decide)⟩,
   ⟨by decide, by decide, (C1_seen_types_persist envLit).2.2 3 ⟨[], []⟩ 0 "!Object"
      ⟨[0], []⟩ (by decide) (by decide)⟩,
   ⟨by decide, (C1_seen_types_persist envLit).1 0 ⟨[0], []⟩ 0 (by decide)⟩⟩

/-- C4 counterexample: the claim says a type-literal shape with a named
field, no construct signatures, and not BOTH callable and indexable
renders as a record.  A shape with one named field that is callable
only does not: the code renders a record only when the shape is neither
callable nor indexable, and degrades to the unknown fallback here. -/
theorem C4_counterexample :
    translateTypeLiteral envCallField 5 ⟨[], []⟩ 0 =
      .ok "?" ⟨[0], ["unhandled type literal"]⟩ ∧
    "?" ≠ "\x7ba: number\x7d" := ⟨by decide, by decide⟩

/-- C4 (amended): a type-literal shape with at least one named field,
no construct signatures, and NEITHER callable NOR indexable renders as
the brace-delimited record of its fields, one per member, each the
member name with its recursively translated type, in member discovery
order (renderMembers is that in-order rendering). -/
theorem C4_record_fields (env : Env) (fuel : Nat) (st : St) (t : Nat) (sid : Nat)
    (ms : List (String × Nat)) (fs : List String) (st' : St)
    (hseen : t ∉ st.seen)
    (hsym : (env.typeAt t).symbol = some sid)
    (hmem : (env.symAt sid).members = some ms)
    (hctor : env.ctorSigs t = [])
    (hsynth : ∀ p ∈ ms, p.1 ≠ "__call" ∧ p.1 ≠ "__index")
    (hren : renderMembers env fuel (st.pushSeen t) ms = .ok fs st')
    (hms : ms ≠ []) :
    translateTypeLiteral env (fuel + 1) st t =
      .ok ("\x7b" ++ String.intercalate ", " fs ++ "\x7d") st' ∧
    fs.length = ms.length := by
  have hlen := renderMembers_length env fuel (st.pushSeen t) ms fs st' hren
  refine ⟨?_, hlen⟩
  have hfs : ¬ fs.length = 0 := by
    intro h0
    exact hms (List.length_eq_zero.mp (hlen ▸ h0))
  simp only [translateTypeLiteral, if_neg hseen, hsym, hmem, hctor, List.length_nil]
  rw [if_neg (fun hcon => hcon rfl)]
  rw [gatherFields_no_synth env fuel (st.pushSeen t) ms false false [] hsynth]
  simp only [hren, List.nil_append, GR.bindTR]
  rw [if_neg hfs, if_pos ⟨by simp, by simp⟩]

/-- C4 witness: the one-field literal a: number renders as the record
with its single field. -/
theorem C4_witness :
    translateTypeLiteral envRecord 3 ⟨[], []⟩ 0 =
      .ok "\x7ba: number\x7d" ⟨[0], []⟩ ∧
    (["a: number"] : List String).length = [("a", 2)].length :=
  ⟨((C4_record_fields envRecord 2 ⟨[], []⟩ 0 0 [("a", 2)] ["a: number"] ⟨[0], []⟩
      (by decide) (by decide) (by decide) (by decide) (by decide) (by decide)
      (by decide)).1).trans (by decide),
   (C4_record_fields envRecord 2 ⟨[], []⟩ 0 0 [("a", 2)] ["a: number"] ⟨[0], []⟩
      (by decide) (by decide) (by decide) (by decide) (by decide) (by decide)
      (by decide)).2⟩


end TsickleModel
